import Mathlib

/-!
Shallow embedding of the `impatient` vectorization engine (src/lib.rs).

The scalar base type `B` (any `inner::Repr` kind) is modelled as `Int`;
a vector value `V` with `V::LANES = L` is modelled as a `List Int` of
length `L` (the code only accesses vectors through `Deref<Target = [B]>`).
A raw start pointer into a slice is modelled by the slice contents
themselves; pointer offset arithmetic `start.add(k)` becomes `List.drop k`.
Rust panics are modelled by `Except VecError`.

The `assert!(len * mem::size_of::<B>() <= isize::MAX as usize)` check in
`create` can never fire for a genuine Rust slice (the language guarantees
every allocated object, hence every slice, is at most `isize::MAX` bytes),
so the embedding carries no counterpart of it.
-/

/-- The distinct panics of the library, by their `panic!`/`assert!` site. -/
inductive VecError
  /-- "Data to vectorize not divisible by lanes ({lanes} vs {len})" -/
  | notDivisible (lanes len : Nat)
  /-- `assert_eq!(asiz, bsiz, "Vectorizing data of different lengths")` -/
  | differentLengths (a b : Nat)
  /-- "Paddings are not provided by both vectorized data" -/
  | paddingAsymmetry
  /-- `assert!(partial.is_none())` in `Vectorizable::vectorize` -/
  | partialNotNone
  deriving DecidableEq

/-- `Partial::size` for the `Option<V>` instance (`self.is_some() as usize`);
the `()` instance is the constant `none`, subsumed by `psize none = 0`. -/
def psize {R : Type} : Option R → Nat
  | some _ => 1
  | none => 0

/-- `VectorizedIter { partial, vectorizer, left, right }`.  The vectorizer
is represented by its one operation `Vectorizer::get`; the partial slot
`P` is represented as `Option R` (the `()` instance is the always-`none`
case, whose `take_partial`/`size` agree with `none`'s). -/
structure VectorizedIter (R : Type) where
  part : Option R
  get : Nat → R
  left : Nat
  right : Nat

namespace VectorizedIter

/-- `Iterator::next`: yield `get(left)` and advance `left` while
`left < right`, then take the partial, then `None`. -/
def next {R : Type} (it : VectorizedIter R) : Option R × VectorizedIter R :=
  if it.left < it.right then
    (some (it.get it.left), { it with left := it.left + 1 })
  else
    match it.part with
    | some p => (some p, { it with part := none })
    | none => (none, it)

/-- `Iterator::size_hint`: `(len, Some(len))` with
`len = right - left + partial.size()`. -/
def sizeHint {R : Type} (it : VectorizedIter R) : Nat × Option Nat :=
  let len := it.right - it.left + psize it.part
  (len, some len)

/-- `Iterator::count`: `self.size_hint().0`. -/
def count {R : Type} (it : VectorizedIter R) : Nat :=
  it.sizeHint.1

/-- `Iterator::nth`: skip `n` main blocks if that many remain, else
exhaust the main range, discard the partial and return `None`. -/
def nth {R : Type} (it : VectorizedIter R) (n : Nat) : Option R × VectorizedIter R :=
  let mainLen := it.right - it.left
  if n ≤ mainLen then
    next { it with left := it.left + n }
  else
    (none, { it with left := it.right, part := none })

/-- `DoubleEndedIterator::next_back`: the partial first, else
`right -= 1; get(right)`, else `None`. -/
def nextBack {R : Type} (it : VectorizedIter R) : Option R × VectorizedIter R :=
  match it.part with
  | some p => (some p, { it with part := none })
  | none =>
    if it.left < it.right then
      (some (it.get (it.right - 1)), { it with right := it.right - 1 })
    else
      (none, it)

/-- `Iterator::last`: `self.next_back()`. -/
def last {R : Type} (it : VectorizedIter R) : Option R × VectorizedIter R :=
  it.nextBack

/-- Number of elements still to be yielded (the `size_hint` value). -/
def remaining {R : Type} (it : VectorizedIter R) : Nat :=
  it.right - it.left + psize it.part

/-- The list of all elements produced by repeated `next` until `None`
(the branches are those of `next`, inlined for structural clarity). -/
def consume {R : Type} (it : VectorizedIter R) : List R :=
  if h : it.left < it.right then
    it.get it.left :: consume { it with left := it.left + 1 }
  else
    match h2 : it.part with
    | some p => p :: consume { it with part := none }
    | none => []
termination_by it.remaining
decreasing_by
  · simp only [remaining, psize]
    omega
  · simp only [remaining, h2, psize]
    omega

/-- The list of all elements produced by repeated `next_back` until `None`. -/
def consumeBack {R : Type} (it : VectorizedIter R) : List R :=
  match h2 : it.part with
  | some p => p :: consumeBack { it with part := none }
  | none =>
    if h : it.left < it.right then
      it.get (it.right - 1) :: consumeBack { it with right := it.right - 1 }
    else
      []
termination_by it.remaining
decreasing_by
  · simp only [remaining, h2, psize]
    omega
  · simp only [remaining, h2, psize]
    omega

/-- `n`-fold application of `next`, discarding the yielded values. -/
def skipN {R : Type} : Nat → VectorizedIter R → VectorizedIter R
  | 0, it => it
  | n + 1, it => skipN n (next it).2

end VectorizedIter

/-- `dst[..src.len()].copy_from_slice(src)` on a list value: overwrite
the first `src.length` slots of `dst` with `src`. -/
def copy_from_slice (dst src : List Int) : List Int :=
  src ++ dst.drop src.length

/-- `ReadVectorizer { start, .. }` for a vector type with `lanes` lanes;
the start pointer is represented by the readable region it points to. -/
structure ReadVectorizer where
  start : List Int
  lanes : Nat

/-- `ReadVectorizer::get`: `V::new_unchecked(self.start.add(V::LANES * idx))`,
i.e. the `LANES` elements at offset `LANES * idx`. -/
def ReadVectorizer.get (v : ReadVectorizer) (idx : Nat) : List Int :=
  (v.start.drop (v.lanes * idx)).take v.lanes

/-- `<&[B] as Vectorizable>::create` for a vector type with `L` lanes. -/
def createRead (L : Nat) (s : List Int) (pad : Option (List Int)) :
    Except VecError (ReadVectorizer × Nat × Option (List Int)) :=
  let len := s.length
  let rest := len % L
  let main := len - rest
  let part : Except VecError (Option (List Int)) :=
    if rest = 0 then .ok none
    else
      match pad with
      | some padv => .ok (some (copy_from_slice padv (s.drop main)))
      | none => .error (.notDivisible L len)
  match part with
  | .ok p => .ok ({ start := s, lanes := L }, main / L, p)
  | .error e => .error e

/-- `MutProxy { data, restore }`: the local block value plus the restore
region, given as offset and length inside the original buffer. -/
structure MutProxy where
  data : List Int
  off : Nat
  len : Nat

/-- `MutProxy::drop`:
`self.restore.copy_from_slice(&self.data.deref()[..self.restore.len()])` —
the effect of releasing the proxy on the buffer `mem` it points into. -/
def mutProxyDrop (mem : List Int) (p : MutProxy) : List Int :=
  mem.take p.off ++ p.data.take p.len ++ mem.drop (p.off + p.len)

/-- `WriteVectorizer { start, .. }`; `start` is the mutable region's
contents at the time `get` reads them. -/
structure WriteVectorizer where
  start : List Int
  lanes : Nat

/-- `WriteVectorizer::get`: loads `V::new_unchecked(ptr)` from
`ptr = start.add(LANES * idx)` and pairs it with the restore slice
`slice::from_raw_parts_mut(ptr, LANES)`. -/
def WriteVectorizer.get (v : WriteVectorizer) (idx : Nat) : MutProxy :=
  { data := (v.start.drop (v.lanes * idx)).take v.lanes
  , off := v.lanes * idx
  , len := v.lanes }

/-- `<&mut [B] as Vectorizable>::create` for a vector type with `L` lanes;
the trailing proxy's restore region is `self[main..]`, of length `rest`. -/
def createWrite (L : Nat) (s : List Int) (pad : Option (List Int)) :
    Except VecError (WriteVectorizer × Nat × Option MutProxy) :=
  let len := s.length
  let rest := len % L
  let main := len - rest
  let part : Except VecError (Option MutProxy) :=
    if rest = 0 then .ok none
    else
      match pad with
      | some padv =>
          .ok (some { data := copy_from_slice padv (s.drop main), off := main, len := rest })
      | none => .error (.notDivisible L len)
  match part with
  | .ok p => .ok ({ start := s, lanes := L }, main / L, p)
  | .error e => .error e

/-- `Vectorizable::vectorize` on `&[B]`: `create(None)`, assert no
partial, wrap in a `VectorizedIter` with the unit partial slot. -/
def vectorize (L : Nat) (s : List Int) :
    Except VecError (VectorizedIter (List Int)) :=
  match createRead L s none with
  | .ok (v, len, p) =>
      if p.isNone then
        .ok { part := none, get := v.get, left := 0, right := len }
      else
        .error .partialNotNone
  | .error e => .error e

/-- `Vectorizable::vectorize_pad` on `&[B]`: `create(Some(pad))`, wrap
in a `VectorizedIter` carrying the returned partial. -/
def vectorizePad (L : Nat) (s : List Int) (pad : List Int) :
    Except VecError (VectorizedIter (List Int)) :=
  match createRead L s (some pad) with
  | .ok (v, len, p) => .ok { part := p, get := v.get, left := 0, right := len }
  | .error e => .error e

/-- `<(A, B) as Vectorizer>::get`: the pair of both sides' `get(idx)`. -/
def tupleGet {RA RB : Type} (ga : Nat → RA) (gb : Nat → RB) (idx : Nat) : RA × RB :=
  (ga idx, gb idx)

/-- `<(A, B) as Vectorizable>::create`, generic over the two sides'
`create` implementations (`cA`, `cB`): split the optional padding pair,
run both sides, `assert_eq!` the block counts, then pair the partials —
a partial on exactly one side is the "Paddings are not provided by both
vectorized data" panic. -/
def createTuple {PA PB VA VB RA RB : Type}
    (cA : Option PA → Except VecError (VA × Nat × Option RA))
    (cB : Option PB → Except VecError (VB × Nat × Option RB))
    (pad : Option (PA × PB)) :
    Except VecError ((VA × VB) × Nat × Option (RA × RB)) :=
  let ab : Option PA × Option PB :=
    match pad with
    | some (a, b) => (some a, some b)
    | none => (none, none)
  match cA ab.1 with
  | .error e => .error e
  | .ok (av, asiz, ap) =>
    match cB ab.2 with
    | .error e => .error e
    | .ok (bv, bsiz, bp) =>
      if asiz = bsiz then
        match ap, bp with
        | some a, some b => .ok ((av, bv), asiz, some (a, b))
        | none, none => .ok ((av, bv), asiz, none)
        | _, _ => .error .paddingAsymmetry
      else
        .error (.differentLengths asiz bsiz)

namespace VectorizedIter

/-- Forward consumption yields the main blocks `left, …, right - 1` in
increasing order, then the partial. -/
theorem consume_spec {R : Type} (it : VectorizedIter R) :
    consume it = (List.range' it.left (it.right - it.left)).map it.get ++ it.part.toList := by
  generalize hN : it.remaining = N
  induction N using Nat.strong_induction_on generalizing it with
  | _ N ih =>
    rw [consume]
    split
    · next h =>
      have hsub : it.right - it.left = (it.right - (it.left + 1)) + 1 := by omega
      rw [ih (remaining { it with left := it.left + 1 }) (by simp [remaining, ← hN]; omega)
            _ rfl]
      rw [hsub, List.range'_succ]
      simp
    · next h =>
      split
      · next p h2 =>
        rw [ih (remaining { it with part := none }) (by simp [remaining, h2, psize, ← hN]) _ rfl]
        have : it.right - it.left = 0 := by omega
        simp [this, h2]
      · next h2 =>
        have : it.right - it.left = 0 := by omega
        simp [this, h2]

/-- Backward consumption yields the partial, then the main blocks in
decreasing order down to `left`. -/
theorem consumeBack_spec {R : Type} (it : VectorizedIter R) :
    consumeBack it =
      it.part.toList ++ ((List.range' it.left (it.right - it.left)).map it.get).reverse := by
  generalize hN : it.remaining = N
  induction N using Nat.strong_induction_on generalizing it with
  | _ N ih =>
    rw [consumeBack]
    split
    · next p h2 =>
      rw [ih (remaining { it with part := none }) (by simp [remaining, h2, psize, ← hN]) _ rfl]
      simp [h2]
    · next h2 =>
      split
      · next h =>
        have hsub : it.right - it.left = (it.right - 1 - it.left) + 1 := by omega
        rw [ih (remaining { it with right := it.right - 1 })
              (by simp [remaining, h2, psize, ← hN]; omega) _ rfl]
        rw [hsub, List.range'_1_concat]
        have : it.left + (it.right - 1 - it.left) = it.right - 1 := by omega
        simp [h2, this]
      · next h =>
        have : it.right - it.left = 0 := by omega
        simp [this, h2]

end VectorizedIter

/-- Concatenating `n` consecutive `L`-element blocks taken from offset
`L * k` onward reproduces the corresponding contiguous region. -/
theorem flatten_blocks (L : Nat) (s : List Int) :
    ∀ n k, ((List.range' k n).map (fun i => (s.drop (L * i)).take L)).flatten
      = (s.drop (L * k)).take (L * n) := by
  intro n
  induction n with
  | zero => simp
  | succ n ih =>
    intro k
    rw [List.range'_succ]
    simp only [List.map_cons, List.flatten_cons, ih (k + 1)]
    rw [Nat.mul_succ L n, Nat.add_comm (L * n) L, List.take_add, List.drop_drop]
    have : L * k + L = L * (k + 1) := by ring
    rw [this]

/-- `(len - len % L) / L = len / L`: the full-block count of the main
region is the floor quotient of the whole length. -/
theorem main_div (len L : Nat) (hL : 0 < L) : (len - len % L) / L = len / L := by
  have h := Nat.mod_add_div len L
  have : len - len % L = L * (len / L) := by omega
  rw [this, Nat.mul_div_cancel_left _ hL]

/-- C1: for a slice whose length is an exact multiple of the lane count,
`create` (with or without padding, on the read and the write path)
succeeds with `length / LANES` blocks and no partial, `vectorize`
succeeds, and concatenating the yielded blocks in forward order
reproduces the slice. -/
theorem aligned_create_exact (L : Nat) (s : List Int) (hL : 0 < L)
    (hal : s.length % L = 0) :
    createRead L s none = .ok ({ start := s, lanes := L }, s.length / L, none)
    ∧ (∀ pad, createRead L s (some pad) = .ok ({ start := s, lanes := L }, s.length / L, none))
    ∧ createWrite L s none = .ok ({ start := s, lanes := L }, s.length / L, none)
    ∧ ∃ it, vectorize L s = .ok it
        ∧ it.consume.length = s.length / L
        ∧ it.consume.flatten = s := by
  have hcr : createRead L s none = .ok ({ start := s, lanes := L }, s.length / L, none) := by
    simp [createRead, hal]
  have hv : vectorize L s =
      .ok { part := none, get := ReadVectorizer.get { start := s, lanes := L },
            left := 0, right := s.length / L } := by
    simp [vectorize, hcr]
  have hLcancel : L * (s.length / L) = s.length :=
    Nat.mul_div_cancel' (Nat.dvd_of_mod_eq_zero hal)
  refine ⟨hcr, ?_, ?_, ?_⟩
  · intro pad
    simp [createRead, hal]
  · simp [createWrite, hal]
  · refine ⟨_, hv, ?_, ?_⟩
    · rw [VectorizedIter.consume_spec]
      simp
    · rw [VectorizedIter.consume_spec]
      simp only [Option.toList_none, List.append_nil, Nat.sub_zero]
      have hfb := flatten_blocks L s (s.length / L) 0
      simp only [Nat.mul_zero, List.drop_zero] at hfb
      show (List.map (ReadVectorizer.get { start := s, lanes := L }) _).flatten = s
      have hget : ReadVectorizer.get { start := s, lanes := L }
          = fun i => (s.drop (L * i)).take L := funext fun i => rfl
      rw [hget, hfb, hLcancel, List.take_length]

/-- Witness for C1 at `L = 2`, `s = [1, 2, 3, 4]`. -/
theorem aligned_create_exact_witness :
    createRead 2 [1, 2, 3, 4] none = .ok ({ start := [1, 2, 3, 4], lanes := 2 }, 2, none)
    ∧ ∃ it, vectorize 2 [1, 2, 3, 4] = .ok it ∧ it.consume.flatten = [1, 2, 3, 4] := by
  have h := aligned_create_exact 2 [1, 2, 3, 4] (by decide) (by decide)
  exact ⟨h.1, h.2.2.2.elim fun it hit => ⟨it, hit.1, hit.2.2⟩⟩

/-- C2: for a slice whose length is not a multiple of the lane count and
a supplied padding block, `create` (read and write paths) yields
`floor(length / LANES)` full blocks plus one trailing partial whose first
`length mod LANES` elements are the slice's tail and whose remaining
lanes are the padding's untouched values; forward iteration yields the
full blocks then that partial. -/
theorem unaligned_padded_partial (L : Nat) (s pad : List Int) (hL : 0 < L)
    (hun : s.length % L ≠ 0) (hpad : pad.length = L) :
    createRead L s (some pad)
      = .ok ({ start := s, lanes := L }, s.length / L,
             some (s.drop (s.length - s.length % L) ++ pad.drop (s.length % L)))
    ∧ (s.drop (s.length - s.length % L) ++ pad.drop (s.length % L)).take (s.length % L)
        = s.drop (s.length - s.length % L)
    ∧ (s.drop (s.length - s.length % L) ++ pad.drop (s.length % L)).drop (s.length % L)
        = pad.drop (s.length % L)
    ∧ (s.drop (s.length - s.length % L) ++ pad.drop (s.length % L)).length = L
    ∧ createWrite L s (some pad)
      = .ok ({ start := s, lanes := L }, s.length / L,
             some { data := s.drop (s.length - s.length % L) ++ pad.drop (s.length % L),
                    off := s.length - s.length % L, len := s.length % L })
    ∧ ∃ it, vectorizePad L s pad = .ok it
        ∧ it.consume
            = (List.range' 0 (s.length / L)).map (fun i => (s.drop (L * i)).take L)
              ++ [s.drop (s.length - s.length % L) ++ pad.drop (s.length % L)] := by
  have hrest_le : s.length % L ≤ s.length := Nat.mod_le s.length L
  have hrest_lt : s.length % L < L := Nat.mod_lt _ hL
  have htail_len : (s.drop (s.length - s.length % L)).length = s.length % L := by
    rw [List.length_drop]
    omega
  have hcp : copy_from_slice pad (s.drop (s.length - s.length % L))
      = s.drop (s.length - s.length % L) ++ pad.drop (s.length % L) := by
    rw [copy_from_slice, htail_len]
  have hcr : createRead L s (some pad)
      = .ok ({ start := s, lanes := L }, s.length / L,
             some (s.drop (s.length - s.length % L) ++ pad.drop (s.length % L))) := by
    simp [createRead, hun, hcp, main_div _ _ hL]
  have hv : vectorizePad L s pad =
      .ok { part := some (s.drop (s.length - s.length % L) ++ pad.drop (s.length % L)),
            get := ReadVectorizer.get { start := s, lanes := L },
            left := 0, right := s.length / L } := by
    simp [vectorizePad, hcr]
  have hsplit : ∀ (l1 l2 : List Int) (r : Nat), l1.length = r →
      (l1 ++ l2).take r = l1 ∧ (l1 ++ l2).drop r = l2 := by
    intro l1 l2 r h
    subst h
    exact ⟨List.take_left .., List.drop_left ..⟩
  refine ⟨hcr, ?_, ?_, ?_, ?_, ?_⟩
  · exact (hsplit _ _ _ htail_len).1
  · exact (hsplit _ _ _ htail_len).2
  · simp
    omega
  · simp [createWrite, hun, hcp, main_div _ _ hL]
  · refine ⟨_, hv, ?_⟩
    rw [VectorizedIter.consume_spec]
    show List.map (ReadVectorizer.get { start := s, lanes := L }) _ ++ _ = _
    have hget : ReadVectorizer.get { start := s, lanes := L }
        = fun i => (s.drop (L * i)).take L := funext fun i => rfl
    simp [hget]

/-- Witness for C2 at `L = 2`, `s = [1, 2, 3]`, `pad = [7, 8]`. -/
theorem unaligned_padded_partial_witness :
    createRead 2 [1, 2, 3] (some [7, 8])
      = .ok ({ start := [1, 2, 3], lanes := 2 }, 1, some [3, 8])
    ∧ createWrite 2 [1, 2, 3] (some [7, 8])
      = .ok ({ start := [1, 2, 3], lanes := 2 }, 1, some { data := [3, 8], off := 2, len := 1 })
    ∧ ∃ it, vectorizePad 2 [1, 2, 3] [7, 8] = .ok it ∧ it.consume = [[1, 2], [3, 8]] := by
  have h := unaligned_padded_partial 2 [1, 2, 3] [7, 8] (by decide) (by decide) (by decide)
  refine ⟨h.1, h.2.2.2.2.1, ?_⟩
  obtain ⟨it, hit, hc⟩ := h.2.2.2.2.2
  exact ⟨it, hit, by rw [hc]; rfl⟩

/-- Splitting an append at the length of its left part. -/
theorem append_split {α : Type} (l1 l2 : List α) (r : Nat) (h : l1.length = r) :
    (l1 ++ l2).take r = l1 ∧ (l1 ++ l2).drop r = l2 := by
  subst h
  exact ⟨List.take_left .., List.drop_left ..⟩

/-- C8: for a slice whose length is not a multiple of the lane count,
`create` without a padding value fails with the
"Data to vectorize not divisible by lanes" panic on both the read and
write paths, and `vectorize` propagates that same fault. -/
theorem unaligned_unpadded_panics (L : Nat) (s : List Int) (hun : s.length % L ≠ 0) :
    createRead L s none = .error (.notDivisible L s.length)
    ∧ createWrite L s none = .error (.notDivisible L s.length)
    ∧ vectorize L s = .error (.notDivisible L s.length) := by
  have h1 : createRead L s none = .error (.notDivisible L s.length) := by
    simp [createRead, hun]
  exact ⟨h1, by simp [createWrite, hun], by simp [vectorize, h1]⟩

/-- C3: releasing a `MutProxy` copies exactly the first `restore.len()`
elements of its local block back into the restore region — the buffer
keeps its length, the prefix before `off` and the suffix from
`off + len` are untouched, and the region `[off, off + len)` now holds
`data[..len]`; `restore.len()` is `LANES` for proxies from
`WriteVectorizer::get` and `length mod LANES` for the trailing partial
from `create`. -/
theorem mutProxy_drop_frame (mem : List Int) (p : MutProxy)
    (hb : p.off + p.len ≤ mem.length) (hd : p.len ≤ p.data.length) :
    (mutProxyDrop mem p).length = mem.length
    ∧ (mutProxyDrop mem p).take p.off = mem.take p.off
    ∧ (mutProxyDrop mem p).drop (p.off + p.len) = mem.drop (p.off + p.len)
    ∧ ((mutProxyDrop mem p).drop p.off).take p.len = p.data.take p.len
    ∧ (∀ (v : WriteVectorizer) idx,
        (v.get idx).off = v.lanes * idx ∧ (v.get idx).len = v.lanes)
    ∧ (∀ (L : Nat) (s padv : List Int), 0 < L → s.length % L ≠ 0 →
        ∃ wv pr, createWrite L s (some padv) = .ok (wv, s.length / L, some pr)
          ∧ pr.off = s.length - s.length % L ∧ pr.len = s.length % L) := by
  have hA : (mem.take p.off).length = p.off := by
    rw [List.length_take]
    omega
  have hB : (p.data.take p.len).length = p.len := by
    rw [List.length_take]
    omega
  have hAB : (mem.take p.off ++ p.data.take p.len).length = p.off + p.len := by
    rw [List.length_append, hA, hB]
  refine ⟨?_, ?_, ?_, ?_, ?_, ?_⟩
  · simp only [mutProxyDrop, List.length_append, List.length_take, List.length_drop]
    omega
  · rw [mutProxyDrop, List.append_assoc]
    exact (append_split _ _ _ hA).1
  · rw [mutProxyDrop]
    exact (append_split _ _ _ hAB).2
  · rw [mutProxyDrop, List.append_assoc, (append_split _ _ _ hA).2]
    exact (append_split _ _ _ hB).1
  · intro v idx
    exact ⟨rfl, rfl⟩
  · intro L s padv hL hun
    have hrest_le : s.length % L ≤ s.length := Nat.mod_le s.length L
    have htail_len : (s.drop (s.length - s.length % L)).length = s.length % L := by
      rw [List.length_drop]
      omega
    refine ⟨{ start := s, lanes := L },
      { data := s.drop (s.length - s.length % L) ++ padv.drop (s.length % L),
        off := s.length - s.length % L, len := s.length % L }, ?_, rfl, rfl⟩
    simp [createWrite, hun, copy_from_slice, htail_len, main_div _ _ hL]

/-- Witness for C8 at `L = 2`, `s = [1, 2, 3]`. -/
theorem unaligned_unpadded_panics_witness :
    createRead 2 [1, 2, 3] none = .error (.notDivisible 2 3)
    ∧ vectorize 2 [1, 2, 3] = .error (.notDivisible 2 3) := by
  have h := unaligned_unpadded_panics 2 [1, 2, 3] (by decide)
  exact ⟨h.1, h.2.2⟩

/-- Witness for C3 at `mem = [1, 2, 3, 4, 5]`, proxy `([9, 8, 7, 6], 2, 3)`,
and the trailing proxy of `createWrite 2 [1, 2, 3] (some [7, 8])`. -/
theorem mutProxy_drop_frame_witness :
    (mutProxyDrop [1, 2, 3, 4, 5] { data := [9, 8, 7, 6], off := 2, len := 3 }).take 2 = [1, 2]
    ∧ ((mutProxyDrop [1, 2, 3, 4, 5] { data := [9, 8, 7, 6], off := 2, len := 3 }).drop 2).take 3
        = [9, 8, 7]
    ∧ ∃ wv pr, createWrite 2 [1, 2, 3] (some [7, 8]) = .ok (wv, 1, some pr)
        ∧ pr.off = 2 ∧ pr.len = 1 := by
  have h := mutProxy_drop_frame [1, 2, 3, 4, 5] { data := [9, 8, 7, 6], off := 2, len := 3 }
    (by decide) (by decide)
  refine ⟨h.2.1, h.2.2.2.1, ?_⟩
  obtain ⟨wv, pr, hcw, hoff, hlen⟩ := h.2.2.2.2.2 2 [1, 2, 3] [7, 8] (by decide) (by decide)
  exact ⟨wv, pr, hcw, hoff, hlen⟩

namespace VectorizedIter

/-- `skipN` inside the main range only advances `left`. -/
theorem skipN_main {R : Type} :
    ∀ (n : Nat) (it : VectorizedIter R), it.left + n ≤ it.right →
      skipN n it = { it with left := it.left + n } := by
  intro n
  induction n with
  | zero => intro it h; rfl
  | succ n ih =>
    intro it h
    have hlt : it.left < it.right := by omega
    rw [skipN, next, if_pos hlt]
    rw [ih { it with left := it.left + 1 } (by simp; omega)]
    have : it.left + 1 + n = it.left + (n + 1) := by omega
    simp [this]

/-- `skipN` past the whole sequence exhausts the main range and the
partial. -/
theorem skipN_over {R : Type} :
    ∀ (n : Nat) (it : VectorizedIter R), it.left ≤ it.right →
      it.right - it.left < n →
      skipN n it = { it with left := it.right, part := none } := by
  intro n
  induction n with
  | zero => intro it h h2; omega
  | succ n ih =>
    intro it h h2
    rw [skipN]
    by_cases hlt : it.left < it.right
    · rw [next, if_pos hlt]
      rw [ih { it with left := it.left + 1 } (by simp; omega) (by simp; omega)]
    · have heq : it.left = it.right := by omega
      obtain ⟨pt, g, l, r⟩ := it
      simp only at heq
      subst heq
      rw [next]
      simp only [lt_irrefl, if_false]
      match pt with
      | some p =>
        simp only
        rcases Nat.eq_zero_or_pos n with hn | hn
        · subst hn
          rfl
        · rw [ih _ (by simp) (by simp; omega)]
      | none =>
        simp only
        rcases Nat.eq_zero_or_pos n with hn | hn
        · subst hn
          rfl
        · rw [ih _ (by simp) (by simp; omega)]

/-- C5: `nth(n)` returns exactly what one further `next` returns after
`n` `next` calls whose results are discarded, and leaves the iterator in
the same state. -/
theorem nth_eq_next_iterated {R : Type} (it : VectorizedIter R) (n : Nat)
    (h : it.left ≤ it.right) :
    it.nth n = next (skipN n it) := by
  rw [nth]
  by_cases hle : n ≤ it.right - it.left
  · rw [if_pos hle, skipN_main n it (by omega)]
  · rw [if_neg hle, skipN_over n it h (by omega)]
    rw [next]
    simp

end VectorizedIter

namespace VectorizedIter

/-- C4 (amended): when a partial is present and the skip count strictly
exceeds the number of remaining main blocks (`n > right - left`),
`nth(n)` consumes the partial without yielding it and returns `None`.
(At `n = right - left` the code instead yields the partial; see the
counterexample.) -/
theorem nth_beyond_consumes_partial {R : Type} (it : VectorizedIter R) (n : Nat)
    (hp : it.part.isSome) (h : it.right - it.left < n) :
    it.nth n = (none, { it with left := it.right, part := none }) := by
  rw [nth, if_neg (by omega)]

/-- C4 counterexample: with two remaining main blocks and a partial
present, `nth(2)` — a skip count equal to the number of remaining main
blocks — yields the partial (`Some 100`), not `None`. -/
theorem nth_at_boundary_yields_partial :
    ({ part := some 100, get := fun i => i, left := 0, right := 2 } :
        VectorizedIter Nat).part.isSome = true
    ∧ 2 ≥ ({ part := some 100, get := fun i => i, left := 0, right := 2 } :
        VectorizedIter Nat).right
      - ({ part := some 100, get := fun i => i, left := 0, right := 2 } :
        VectorizedIter Nat).left
    ∧ (({ part := some 100, get := fun i => i, left := 0, right := 2 } :
        VectorizedIter Nat).nth 2).1 = some 100 := by
  exact ⟨rfl, by decide, rfl⟩

/-- C6: `size_hint` reports, as both bounds, exactly the number of
elements a complete forward (or backward) consumption yields; `count`
returns the same number; and the iterator is fused — once `next`
returns `None` the state is unchanged and every later `next` and
`next_back` also returns `None`. -/
theorem length_exact_and_fused {R : Type} (it : VectorizedIter R) :
    it.sizeHint = (it.consume.length, some it.consume.length)
    ∧ it.count = it.consume.length
    ∧ it.consumeBack.length = it.consume.length
    ∧ ((next it).1 = none →
        next (next it).2 = (none, (next it).2)
        ∧ nextBack (next it).2 = (none, (next it).2)) := by
  have hlen : it.consume.length = it.right - it.left + psize it.part := by
    rw [consume_spec]
    simp
    cases it.part <;> simp [psize]
  refine ⟨?_, ?_, ?_, ?_⟩
  · rw [sizeHint, hlen]
  · rw [count, sizeHint, hlen]
  · rw [consumeBack_spec, consume_spec]
    simp
    omega
  · intro hn
    have hstate : ¬ it.left < it.right ∧ it.part = none := by
      by_cases hlt : it.left < it.right
      · rw [next, if_pos hlt] at hn
        exact absurd hn (by simp)
      · rw [next, if_neg hlt] at hn
        match hp : it.part with
        | some p => rw [hp] at hn; exact absurd hn (by simp)
        | none => exact ⟨hlt, rfl⟩

    have hid : (next it).2 = it := by
      rw [next, if_neg hstate.1, hstate.2]
    rw [hid]
    constructor
    · rw [next, if_neg hstate.1, hstate.2]
    · rw [nextBack, hstate.2]  -- match on part: part = none; need rewrite inside match
      rw [if_neg hstate.1]

end VectorizedIter

namespace VectorizedIter

/-- C7: `next_back` yields the partial first when present, otherwise the
main block at `right - 1`; forward consumption is the main blocks in
increasing order with the partial last, backward consumption is the
partial first then main blocks in decreasing order, and the two are
permutations of each other. -/
theorem backward_order_and_multiset {R : Type} (it : VectorizedIter R) :
    (∀ p, it.part = some p → nextBack it = (some p, { it with part := none }))
    ∧ (it.part = none → it.left < it.right →
        nextBack it = (some (it.get (it.right - 1)), { it with right := it.right - 1 }))
    ∧ consume it = (List.range' it.left (it.right - it.left)).map it.get ++ it.part.toList
    ∧ consumeBack it
        = it.part.toList ++ ((List.range' it.left (it.right - it.left)).map it.get).reverse
    ∧ it.consumeBack.Perm it.consume := by
  refine ⟨?_, ?_, consume_spec it, consumeBack_spec it, ?_⟩
  · intro p hp
    simp only [nextBack, hp]
  · intro hp hlt
    simp only [nextBack, hp, if_pos hlt]
  · rw [consume_spec, consumeBack_spec]
    exact List.perm_append_comm.trans
      ((((List.range' it.left (it.right - it.left)).map it.get).reverse_perm).append_right
        it.part.toList)

end VectorizedIter

namespace VectorizedIter

/-- Witness for C5 at `it = (partial Some 9, get = 10i, left 1, right 3)`,
`n = 2`. -/
theorem nth_eq_next_iterated_witness :
    nth { part := some 9, get := fun i => i * 10, left := 1, right := 3 } 2
      = next (skipN 2 { part := some 9, get := fun i => i * 10, left := 1, right := 3 }) :=
  nth_eq_next_iterated { part := some 9, get := fun i => i * 10, left := 1, right := 3 } 2
    (by decide)

/-- Witness for C4 (amended) at the same state with `n = 3 > 2`. -/
theorem nth_beyond_consumes_partial_witness :
    nth { part := some 100, get := fun i => i, left := 0, right := 2 } 3
      = (none, { part := none, get := fun i => i, left := 2, right := 2 }) :=
  nth_beyond_consumes_partial
    { part := some 100, get := fun i => i, left := 0, right := 2 } 3 (by simp) (by decide)

/-- Witness for C6: `count` agrees with forward consumption on a state
with one main block and a partial, and fusedness on an exhausted state. -/
theorem length_exact_and_fused_witness :
    count ({ part := some 5, get := fun i => i, left := 1, right := 3 } : VectorizedIter Nat)
      = (consume { part := some 5, get := fun i => i, left := 1, right := 3 }).length
    ∧ next (next ({ part := none, get := fun i => i, left := 2, right := 2 } :
          VectorizedIter Nat)).2
        = (none, (next ({ part := none, get := fun i => i, left := 2, right := 2 } :
            VectorizedIter Nat)).2) := by
  refine ⟨(length_exact_and_fused _).2.1, ?_⟩
  exact ((length_exact_and_fused
    ({ part := none, get := fun i => i, left := 2, right := 2 } : VectorizedIter Nat)).2.2.2
      rfl).1

/-- Witness for C7: the backward step on a state with a partial, on a
partial-free state, and the forward/backward permutation. -/
theorem backward_order_and_multiset_witness :
    nextBack ({ part := some 9, get := fun i => i, left := 0, right := 2 } : VectorizedIter Nat)
      = (some 9, { part := none, get := fun i => i, left := 0, right := 2 })
    ∧ nextBack ({ part := none, get := fun i => i, left := 0, right := 2 } : VectorizedIter Nat)
        = (some 1, { part := none, get := fun i => i, left := 0, right := 1 })
    ∧ (consumeBack ({ part := some 9, get := fun i => i, left := 0, right := 2 } :
          VectorizedIter Nat)).Perm
        (consume { part := some 9, get := fun i => i, left := 0, right := 2 }) := by
  refine ⟨(backward_order_and_multiset _).1 9 rfl, ?_, (backward_order_and_multiset _).2.2.2.2⟩
  exact (backward_order_and_multiset _).2.1 rfl (by decide)

end VectorizedIter

/-- `createTuple` with the optional padding pair split into the two
sides' optional paddings. -/
theorem createTuple_pads {PA PB VA VB RA RB : Type}
    (cA : Option PA → Except VecError (VA × Nat × Option RA))
    (cB : Option PB → Except VecError (VB × Nat × Option RB))
    (pad : Option (PA × PB)) :
    createTuple cA cB pad =
      (match cA (pad.map Prod.fst) with
      | .error e => .error e
      | .ok (av, asiz, ap) =>
        match cB (pad.map Prod.snd) with
        | .error e => .error e
        | .ok (bv, bsiz, bp) =>
          if asiz = bsiz then
            match ap, bp with
            | some a, some b => .ok ((av, bv), asiz, some (a, b))
            | none, none => .ok ((av, bv), asiz, none)
            | _, _ => .error .paddingAsymmetry
          else
            .error (.differentLengths asiz bsiz)) := by
  cases pad with
  | none => rfl
  | some x =>
    obtain ⟨pa, pb⟩ := x
    rfl

/-- C9: tuple `create` succeeds only when both sides succeed with equal
block counts — unequal counts are the "Vectorizing data of different
lengths" panic, and a partial produced on exactly one side (the only way
the code can observe a one-sided padding) is the "Paddings are not
provided by both vectorized data" panic; on success the joint vectorizer
`get(idx)` is the pair of both sides' `get(idx)` and the joint partial
is the pair of both sides' partials. -/
theorem tuple_create_spec {PA PB VA VB RA RB : Type}
    (cA : Option PA → Except VecError (VA × Nat × Option RA))
    (cB : Option PB → Except VecError (VB × Nat × Option RB)) :
    (∀ pad v n p, createTuple cA cB pad = .ok (v, n, p) →
        ∃ av bv, cA (pad.map Prod.fst) = .ok (av, n, p.map Prod.fst)
          ∧ cB (pad.map Prod.snd) = .ok (bv, n, p.map Prod.snd)
          ∧ v = (av, bv))
    ∧ (∀ pad av asiz ap bv bsiz bp,
        cA (pad.map Prod.fst) = .ok (av, asiz, ap) →
        cB (pad.map Prod.snd) = .ok (bv, bsiz, bp) →
        asiz ≠ bsiz →
        createTuple cA cB pad = .error (.differentLengths asiz bsiz))
    ∧ (∀ pad av n ap bv bp,
        cA (pad.map Prod.fst) = .ok (av, n, ap) →
        cB (pad.map Prod.snd) = .ok (bv, n, bp) →
        ap.isSome ≠ bp.isSome →
        createTuple cA cB pad = .error .paddingAsymmetry)
    ∧ (∀ (ga : Nat → RA) (gb : Nat → RB) idx, tupleGet ga gb idx = (ga idx, gb idx)) := by
  refine ⟨?_, ?_, ?_, fun ga gb idx => rfl⟩
  · intro pad v n p hok
    rw [createTuple_pads] at hok
    cases hca : cA (pad.map Prod.fst) with
    | error e => rw [hca] at hok; exact absurd hok (by simp)
    | ok x =>
      obtain ⟨av, asiz, ap⟩ := x
      rw [hca] at hok
      cases hcb : cB (pad.map Prod.snd) with
      | error e => rw [hcb] at hok; exact absurd hok (by simp)
      | ok y =>
        obtain ⟨bv, bsiz, bp⟩ := y
        rw [hcb] at hok
        simp only [] at hok
        by_cases hsz : asiz = bsiz
        · subst hsz
          rw [if_pos rfl] at hok
          match hap : ap, hbp : bp with
          | some a, some b =>
            simp only [] at hok
            simp only [Except.ok.injEq, Prod.mk.injEq] at hok
            obtain ⟨hv, hn, hp⟩ := hok
            subst hv hn
            subst hp
            exact ⟨av, bv, rfl, rfl, rfl⟩
          | some a, none =>
            simp only [] at hok
            exact absurd hok (by simp)
          | none, some b =>
            simp only [] at hok
            exact absurd hok (by simp)
          | none, none =>
            simp only [] at hok
            simp only [Except.ok.injEq, Prod.mk.injEq] at hok
            obtain ⟨hv, hn, hp⟩ := hok
            subst hv hn
            subst hp
            exact ⟨av, bv, rfl, rfl, rfl⟩
        · rw [if_neg hsz] at hok
          exact absurd hok (by simp)
  · intro pad av asiz ap bv bsiz bp hca hcb hne
    rw [createTuple_pads, hca, hcb]
    simp only []
    rw [if_neg hne]
  · intro pad av n ap bv bp hca hcb hne
    rw [createTuple_pads, hca, hcb]
    simp only [if_true]
    match hap : ap, hbp : bp with
    | some a, some b => exact absurd rfl hne
    | some a, none => rfl
    | none, some b => rfl
    | none, none => exact absurd rfl hne

/-- C10: when both sides of a pair are given padding values and have
equal full-block counts but exactly one side's length is a multiple of
its lane count, tuple `create` fails with the padding-asymmetry panic
rather than producing a sequence. -/
theorem tuple_one_sided_partial_panics (LA LB : Nat) (sA sB pdA pdB : List Int)
    (hA : 0 < LA) (hB : 0 < LB)
    (hsize : sA.length / LA = sB.length / LB)
    (hx : (sA.length % LA = 0 ∧ sB.length % LB ≠ 0)
      ∨ (sA.length % LA ≠ 0 ∧ sB.length % LB = 0)) :
    createTuple (createRead LA sA) (createRead LB sB) (some (pdA, pdB))
      = .error .paddingAsymmetry := by
  rcases hx with ⟨hal, hun⟩ | ⟨hun, hal⟩
  · have h1 : createRead LA sA (some pdA)
        = .ok ({ start := sA, lanes := LA }, sA.length / LA, none) := by
      simp [createRead, hal]
    have h2 : createRead LB sB (some pdB)
        = .ok ({ start := sB, lanes := LB }, sB.length / LB,
               some (copy_from_slice pdB (sB.drop (sB.length - sB.length % LB)))) := by
      simp [createRead, hun, main_div _ _ hB]
    rw [createTuple_pads]
    simp only [Option.map_some']
    rw [h1, h2]
    simp only []
    rw [if_pos hsize]
  · have h1 : createRead LA sA (some pdA)
        = .ok ({ start := sA, lanes := LA }, sA.length / LA,
               some (copy_from_slice pdA (sA.drop (sA.length - sA.length % LA)))) := by
      simp [createRead, hun, main_div _ _ hA]
    have h2 : createRead LB sB (some pdB)
        = .ok ({ start := sB, lanes := LB }, sB.length / LB, none) := by
      simp [createRead, hal]
    rw [createTuple_pads]
    simp only [Option.map_some']
    rw [h1, h2]
    simp only []
    rw [if_pos hsize]

/-- Witness for C9: unequal block counts (`[1,2]` vs `[3,4,5,6]` at two
lanes) hit the different-lengths panic; a one-sided partial
(`[1,2,3]` at three lanes vs `[4,5,6]` at two lanes, both padded) hits
the padding-asymmetry panic; and the joint `get` pairs the sides. -/
theorem tuple_create_spec_witness :
    createTuple (createRead 2 [1, 2]) (createRead 2 [3, 4, 5, 6]) none
      = .error (.differentLengths 1 2)
    ∧ createTuple (createRead 3 [1, 2, 3]) (createRead 2 [4, 5, 6]) (some ([9, 9, 9], [7, 7]))
      = .error .paddingAsymmetry
    ∧ tupleGet (fun i => i) (fun i => i + 1) 5 = (5, 6) := by
  refine ⟨?_, ?_,
    (tuple_create_spec (fun _ => .error .paddingAsymmetry : Option Unit →
        Except VecError (Unit × Nat × Option Nat))
      (fun _ => .error .paddingAsymmetry : Option Unit →
        Except VecError (Unit × Nat × Option Nat))).2.2.2
      (fun i => i) (fun i => i + 1) 5⟩
  · exact (tuple_create_spec (createRead 2 [1, 2]) (createRead 2 [3, 4, 5, 6])).2.1
      none { start := [1, 2], lanes := 2 } 1 none { start := [3, 4, 5, 6], lanes := 2 } 2 none
      rfl rfl (by decide)
  · exact (tuple_create_spec (createRead 3 [1, 2, 3]) (createRead 2 [4, 5, 6])).2.2.1
      (some ([9, 9, 9], [7, 7])) { start := [1, 2, 3], lanes := 3 } 1 none
      { start := [4, 5, 6], lanes := 2 } (some [6, 7]) rfl rfl (by decide)

/-- Witness for C10 at `sA = [1, 2]`, `sB = [3, 4, 5]`, two lanes each,
both sides padded: one full block each, only `sB` unaligned. -/
theorem tuple_one_sided_partial_panics_witness :
    createTuple (createRead 2 [1, 2]) (createRead 2 [3, 4, 5]) (some ([9, 9], [7, 7]))
      = .error .paddingAsymmetry :=
  tuple_one_sided_partial_panics 2 2 [1, 2] [3, 4, 5] [9, 9] [7, 7]
    (by decide) (by decide) (by decide) (Or.inl (by decide))
